import Mathlib

/-!
# The H5T stub header of hdf5-ocaml (`src/lib/raw/h5t_stubs.h`)

The header defines two accessor macros over the payload of an OCaml custom
block,

    #define H5T_val(v)    *((hid_t*) Data_custom_val(v))
    #define H5T_closed(v) *((bool*) ((char*) Data_custom_val(v) + sizeof(hid_t)))

and declares `alloc_h5t` and one pair of conversion functions per HDF5
enumeration.  The payload is embedded as a byte-addressed memory; the two
macros become loads and stores at the offsets the C expressions compute.
-/

namespace H5TStubs

/-! ## Byte-addressed payload -/

/-- One byte of memory. -/
abbrev Byte := Fin 256

/-- The memory `Data_custom_val(v)` points to: payload offset ↦ byte. -/
abbrev Payload := Nat → Byte

/-- The part of the C target the header depends on: `sizeof(hid_t)` and the
byte order of integers. -/
structure Target where
  sizeof_hid_t : Nat
  big_endian : Bool
deriving DecidableEq, Repr

/-- The value of `sizeof(bool)` (`<stdbool.h>`): one byte. -/
def sizeof_bool : Nat := 1

/-- The offsets an access of `len` bytes at offset `off` touches. -/
def footprint (off len : Nat) : List Nat := (List.range len).map (fun k => off + k)

/-- Load `len` bytes starting at offset `off`. -/
def load (p : Payload) (off len : Nat) : List Byte := (footprint off len).map p

/-- Store the bytes `bs` starting at offset `off`. -/
def store (p : Payload) (off : Nat) (bs : List Byte) : Payload :=
  fun a => if off ≤ a then (bs.get? (a - off)).getD (p a) else p a

/-! ## Object representation of integers -/

/-- The `n` low-order bytes of `u`, least significant first. -/
def le_bytes : Nat → Nat → List Byte
  | 0, _ => []
  | n + 1, u => ⟨u % 256, Nat.mod_lt _ (by decide)⟩ :: le_bytes n (u / 256)

/-- The unsigned value of a byte sequence, least significant first. -/
def le_value : List Byte → Nat
  | [] => 0
  | b :: bs => b.val + 256 * le_value bs

/-- The object representation of the `n`-byte unsigned integer `u % 256^n`. -/
def int_bytes (t : Target) (n u : Nat) : List Byte :=
  if t.big_endian then (le_bytes n u).reverse else le_bytes n u

/-- The unsigned value of an object representation. -/
def bytes_int (t : Target) (bs : List Byte) : Nat :=
  if t.big_endian then le_value bs.reverse else le_value bs

/-- The bit pattern of the signed integer `i` in `sizeof(hid_t)` bytes
(two's complement, reduced modulo `256 ^ sizeof(hid_t)`). -/
def hid_t_bits (t : Target) (i : Int) : Nat := (i % (256 ^ t.sizeof_hid_t : Int)).toNat

/-- The signed integer a `sizeof(hid_t)`-byte bit pattern stands for. -/
def hid_t_of_bits (t : Target) (u : Nat) : Int :=
  if 2 * u < 256 ^ t.sizeof_hid_t then (u : Int) else (u : Int) - 256 ^ t.sizeof_hid_t

/-- The values of type `hid_t`: signed integers of `sizeof(hid_t)` bytes. -/
def hid_t_range (t : Target) (i : Int) : Prop :=
  -(256 ^ t.sizeof_hid_t : Int) ≤ 2 * i ∧ 2 * i < 256 ^ t.sizeof_hid_t

instance (t : Target) (i : Int) : Decidable (hid_t_range t i) := by
  unfold hid_t_range; infer_instance

/-! ## The accessor macros -/

/-- The offsets `H5T_val(v)` accesses: a `hid_t` at `Data_custom_val(v)`. -/
def H5T_val_footprint (t : Target) : List Nat := footprint 0 t.sizeof_hid_t

/-- The offsets `H5T_closed(v)` accesses: a `bool` at
`(char*) Data_custom_val(v) + sizeof(hid_t)`. -/
def H5T_closed_footprint (t : Target) : List Nat := footprint t.sizeof_hid_t sizeof_bool

/-- Reading `H5T_val(v)`, i.e. `*((hid_t*) Data_custom_val(v))` as an rvalue. -/
def H5T_val (t : Target) (p : Payload) : Int :=
  hid_t_of_bits t (bytes_int t (load p 0 t.sizeof_hid_t))

/-- The assignment `H5T_val(v) = i`. -/
def H5T_val_assign (t : Target) (p : Payload) (i : Int) : Payload :=
  store p 0 (int_bytes t t.sizeof_hid_t (hid_t_bits t i))

/-- Reading `H5T_closed(v)`, i.e.
`*((bool*) ((char*) Data_custom_val(v) + sizeof(hid_t)))` as an rvalue: the
stored byte is non-zero. -/
def H5T_closed (t : Target) (p : Payload) : Bool :=
  (load p t.sizeof_hid_t sizeof_bool).any (fun b => b != 0)

/-- The assignment `H5T_closed(v) = b`: `true` is stored as 1, `false` as 0. -/
def H5T_closed_assign (t : Target) (p : Payload) (b : Bool) : Payload :=
  store p t.sizeof_hid_t (int_bytes t sizeof_bool (if b then 1 else 0))

/-! ## Enumeration families

The header declares, for each family, `H5T_<family>_t H5T_<family>_val(value)`
and `value Val_h5t_<family>(H5T_<family>_t)`; the bodies are not part of the
header.  A native enumerator is a C `int`, with the value HDF5's public header
gives to the enumerator of that name.  The native-to-tag direction is total on
the enumerators HDF5 declares for the family ("must handle every value the
HDF5 headers define, including error sentinels where they exist"), so every
declared enumerator has a tag of its own: the tags of the family table come
first, in the table's order, and a declared enumerator the table does not
name has its tag appended after them ("adding a new tag appends to the end of
its family").
-/

/-- Modelled from the spec: the host tags of family `class`, which the header
does not declare.  The family table lists: integer, float, time, string,
bitfield, opaque, compound, reference, enum, vlen, array, no_class.
The enumerators HDF5 declares beyond the table, each with its own tag,
appended: `H5T_NCLASSES` (11). -/
inductive class_tag where
  | integer
  | float
  | time
  | string
  | bitfield
  | opaque_
  | compound
  | reference
  | enum
  | vlen
  | array
  | no_class
  | nclasses
deriving DecidableEq, Repr, Fintype

/-- Modelled from the spec: the body of `H5T_class_val`, declared in the header
without a body: each tag goes to the native enumerator with the same meaning. -/
def H5T_class_val : class_tag → Int
  | .integer => 0  -- H5T_INTEGER
  | .float => 1  -- H5T_FLOAT
  | .time => 2  -- H5T_TIME
  | .string => 3  -- H5T_STRING
  | .bitfield => 4  -- H5T_BITFIELD
  | .opaque_ => 5  -- H5T_OPAQUE
  | .compound => 6  -- H5T_COMPOUND
  | .reference => 7  -- H5T_REFERENCE
  | .enum => 8  -- H5T_ENUM
  | .vlen => 9  -- H5T_VLEN
  | .array => 10  -- H5T_ARRAY
  | .no_class => -1  -- H5T_NO_CLASS
  | .nclasses => 11  -- H5T_NCLASSES

/-- Modelled from the spec: the body of `Val_h5t_class`, declared in the header
without a body: a dispatch on the native enumerator, one case per enumerator
HDF5 declares; an integer that is no enumerator of the family is an invariant
violation (`none`). -/
def Val_h5t_class (n : Int) : Option class_tag :=
  if n = 0 then some .integer  -- H5T_INTEGER
  else if n = 1 then some .float  -- H5T_FLOAT
  else if n = 2 then some .time  -- H5T_TIME
  else if n = 3 then some .string  -- H5T_STRING
  else if n = 4 then some .bitfield  -- H5T_BITFIELD
  else if n = 5 then some .opaque_  -- H5T_OPAQUE
  else if n = 6 then some .compound  -- H5T_COMPOUND
  else if n = 7 then some .reference  -- H5T_REFERENCE
  else if n = 8 then some .enum  -- H5T_ENUM
  else if n = 9 then some .vlen  -- H5T_VLEN
  else if n = 10 then some .array  -- H5T_ARRAY
  else if n = -1 then some .no_class  -- H5T_NO_CLASS
  else if n = 11 then some .nclasses  -- H5T_NCLASSES
  else none

/-- Modelled from the spec: the host tags of family `order`, which the header
does not declare.  The family table lists: little-endian, big-endian, vax, mixed, none.
The enumerators HDF5 declares beyond the table, each with its own tag,
appended: `H5T_ORDER_ERROR` (-1). -/
inductive order_tag where
  | little_endian
  | big_endian
  | vax
  | mixed
  | none
  | error
deriving DecidableEq, Repr, Fintype

/-- Modelled from the spec: the body of `H5T_order_val`, declared in the header
without a body: each tag goes to the native enumerator with the same meaning. -/
def H5T_order_val : order_tag → Int
  | .little_endian => 0  -- H5T_ORDER_LE
  | .big_endian => 1  -- H5T_ORDER_BE
  | .vax => 2  -- H5T_ORDER_VAX
  | .mixed => 3  -- H5T_ORDER_MIXED
  | .none => 4  -- H5T_ORDER_NONE
  | .error => -1  -- H5T_ORDER_ERROR

/-- Modelled from the spec: the body of `Val_h5t_order`, declared in the header
without a body: a dispatch on the native enumerator, one case per enumerator
HDF5 declares; an integer that is no enumerator of the family is an invariant
violation (`none`). -/
def Val_h5t_order (n : Int) : Option order_tag :=
  if n = 0 then some .little_endian  -- H5T_ORDER_LE
  else if n = 1 then some .big_endian  -- H5T_ORDER_BE
  else if n = 2 then some .vax  -- H5T_ORDER_VAX
  else if n = 3 then some .mixed  -- H5T_ORDER_MIXED
  else if n = 4 then some .none  -- H5T_ORDER_NONE
  else if n = -1 then some .error  -- H5T_ORDER_ERROR
  else none

/-- Modelled from the spec: the host tags of family `sign`, which the header
does not declare.  The family table lists: none (unsigned), two's-complement, error.
The enumerators HDF5 declares beyond the table, each with its own tag,
appended: `H5T_NSGN` (2). -/
inductive sign_tag where
  | none
  | twos_complement
  | error
  | nsgn
deriving DecidableEq, Repr, Fintype

/-- Modelled from the spec: the body of `H5T_sign_val`, declared in the header
without a body: each tag goes to the native enumerator with the same meaning. -/
def H5T_sign_val : sign_tag → Int
  | .none => 0  -- H5T_SGN_NONE
  | .twos_complement => 1  -- H5T_SGN_2
  | .error => -1  -- H5T_SGN_ERROR
  | .nsgn => 2  -- H5T_NSGN

/-- Modelled from the spec: the body of `Val_h5t_sign`, declared in the header
without a body: a dispatch on the native enumerator, one case per enumerator
HDF5 declares; an integer that is no enumerator of the family is an invariant
violation (`none`). -/
def Val_h5t_sign (n : Int) : Option sign_tag :=
  if n = 0 then some .none  -- H5T_SGN_NONE
  else if n = 1 then some .twos_complement  -- H5T_SGN_2
  else if n = -1 then some .error  -- H5T_SGN_ERROR
  else if n = 2 then some .nsgn  -- H5T_NSGN
  else none

/-- Modelled from the spec: the host tags of family `norm`, which the header
does not declare.  The family table lists: implied, msb-set, none.
The enumerators HDF5 declares beyond the table, each with its own tag,
appended: `H5T_NORM_ERROR` (-1). -/
inductive norm_tag where
  | implied
  | msb_set
  | none
  | error
deriving DecidableEq, Repr, Fintype

/-- Modelled from the spec: the body of `H5T_norm_val`, declared in the header
without a body: each tag goes to the native enumerator with the same meaning. -/
def H5T_norm_val : norm_tag → Int
  | .implied => 0  -- H5T_NORM_IMPLIED
  | .msb_set => 1  -- H5T_NORM_MSBSET
  | .none => 2  -- H5T_NORM_NONE
  | .error => -1  -- H5T_NORM_ERROR

/-- Modelled from the spec: the body of `Val_h5t_norm`, declared in the header
without a body: a dispatch on the native enumerator, one case per enumerator
HDF5 declares; an integer that is no enumerator of the family is an invariant
violation (`none`). -/
def Val_h5t_norm (n : Int) : Option norm_tag :=
  if n = 0 then some .implied  -- H5T_NORM_IMPLIED
  else if n = 1 then some .msb_set  -- H5T_NORM_MSBSET
  else if n = 2 then some .none  -- H5T_NORM_NONE
  else if n = -1 then some .error  -- H5T_NORM_ERROR
  else none

/-- Modelled from the spec: the host tags of family `cset`, which the header
does not declare.  The family table lists: ascii, utf8, reserved_2 ... reserved_15, error. -/
inductive cset_tag where
  | ascii
  | utf8
  | reserved_2
  | reserved_3
  | reserved_4
  | reserved_5
  | reserved_6
  | reserved_7
  | reserved_8
  | reserved_9
  | reserved_10
  | reserved_11
  | reserved_12
  | reserved_13
  | reserved_14
  | reserved_15
  | error
deriving DecidableEq, Repr, Fintype

/-- Modelled from the spec: the body of `H5T_cset_val`, declared in the header
without a body: each tag goes to the native enumerator with the same meaning. -/
def H5T_cset_val : cset_tag → Int
  | .ascii => 0  -- H5T_CSET_ASCII
  | .utf8 => 1  -- H5T_CSET_UTF8
  | .reserved_2 => 2  -- H5T_CSET_RESERVED_2
  | .reserved_3 => 3  -- H5T_CSET_RESERVED_3
  | .reserved_4 => 4  -- H5T_CSET_RESERVED_4
  | .reserved_5 => 5  -- H5T_CSET_RESERVED_5
  | .reserved_6 => 6  -- H5T_CSET_RESERVED_6
  | .reserved_7 => 7  -- H5T_CSET_RESERVED_7
  | .reserved_8 => 8  -- H5T_CSET_RESERVED_8
  | .reserved_9 => 9  -- H5T_CSET_RESERVED_9
  | .reserved_10 => 10  -- H5T_CSET_RESERVED_10
  | .reserved_11 => 11  -- H5T_CSET_RESERVED_11
  | .reserved_12 => 12  -- H5T_CSET_RESERVED_12
  | .reserved_13 => 13  -- H5T_CSET_RESERVED_13
  | .reserved_14 => 14  -- H5T_CSET_RESERVED_14
  | .reserved_15 => 15  -- H5T_CSET_RESERVED_15
  | .error => -1  -- H5T_CSET_ERROR

/-- Modelled from the spec: the body of `Val_h5t_cset`, declared in the header
without a body: a dispatch on the native enumerator, one case per enumerator
HDF5 declares; an integer that is no enumerator of the family is an invariant
violation (`none`). -/
def Val_h5t_cset (n : Int) : Option cset_tag :=
  if n = 0 then some .ascii  -- H5T_CSET_ASCII
  else if n = 1 then some .utf8  -- H5T_CSET_UTF8
  else if n = 2 then some .reserved_2  -- H5T_CSET_RESERVED_2
  else if n = 3 then some .reserved_3  -- H5T_CSET_RESERVED_3
  else if n = 4 then some .reserved_4  -- H5T_CSET_RESERVED_4
  else if n = 5 then some .reserved_5  -- H5T_CSET_RESERVED_5
  else if n = 6 then some .reserved_6  -- H5T_CSET_RESERVED_6
  else if n = 7 then some .reserved_7  -- H5T_CSET_RESERVED_7
  else if n = 8 then some .reserved_8  -- H5T_CSET_RESERVED_8
  else if n = 9 then some .reserved_9  -- H5T_CSET_RESERVED_9
  else if n = 10 then some .reserved_10  -- H5T_CSET_RESERVED_10
  else if n = 11 then some .reserved_11  -- H5T_CSET_RESERVED_11
  else if n = 12 then some .reserved_12  -- H5T_CSET_RESERVED_12
  else if n = 13 then some .reserved_13  -- H5T_CSET_RESERVED_13
  else if n = 14 then some .reserved_14  -- H5T_CSET_RESERVED_14
  else if n = 15 then some .reserved_15  -- H5T_CSET_RESERVED_15
  else if n = -1 then some .error  -- H5T_CSET_ERROR
  else none

/-- Modelled from the spec: the host tags of family `str`, which the header
does not declare.  The family table lists: null-terminated, null-padded, space-padded, reserved, error.
The enumerators HDF5 declares beyond the table, each with its own tag,
appended: `H5T_STR_RESERVED_4` ... `H5T_STR_RESERVED_15` (4..15). -/
inductive str_tag where
  | null_terminated
  | null_padded
  | space_padded
  | reserved
  | error
  | reserved_4
  | reserved_5
  | reserved_6
  | reserved_7
  | reserved_8
  | reserved_9
  | reserved_10
  | reserved_11
  | reserved_12
  | reserved_13
  | reserved_14
  | reserved_15
deriving DecidableEq, Repr, Fintype

/-- Modelled from the spec: the body of `H5T_str_val`, declared in the header
without a body: each tag goes to the native enumerator with the same meaning. -/
def H5T_str_val : str_tag → Int
  | .null_terminated => 0  -- H5T_STR_NULLTERM
  | .null_padded => 1  -- H5T_STR_NULLPAD
  | .space_padded => 2  -- H5T_STR_SPACEPAD
  | .reserved => 3  -- H5T_STR_RESERVED_3
  | .error => -1  -- H5T_STR_ERROR
  | .reserved_4 => 4  -- H5T_STR_RESERVED_4
  | .reserved_5 => 5  -- H5T_STR_RESERVED_5
  | .reserved_6 => 6  -- H5T_STR_RESERVED_6
  | .reserved_7 => 7  -- H5T_STR_RESERVED_7
  | .reserved_8 => 8  -- H5T_STR_RESERVED_8
  | .reserved_9 => 9  -- H5T_STR_RESERVED_9
  | .reserved_10 => 10  -- H5T_STR_RESERVED_10
  | .reserved_11 => 11  -- H5T_STR_RESERVED_11
  | .reserved_12 => 12  -- H5T_STR_RESERVED_12
  | .reserved_13 => 13  -- H5T_STR_RESERVED_13
  | .reserved_14 => 14  -- H5T_STR_RESERVED_14
  | .reserved_15 => 15  -- H5T_STR_RESERVED_15

/-- Modelled from the spec: the body of `Val_h5t_str`, declared in the header
without a body: a dispatch on the native enumerator, one case per enumerator
HDF5 declares; an integer that is no enumerator of the family is an invariant
violation (`none`). -/
def Val_h5t_str (n : Int) : Option str_tag :=
  if n = 0 then some .null_terminated  -- H5T_STR_NULLTERM
  else if n = 1 then some .null_padded  -- H5T_STR_NULLPAD
  else if n = 2 then some .space_padded  -- H5T_STR_SPACEPAD
  else if n = 3 then some .reserved  -- H5T_STR_RESERVED_3
  else if n = -1 then some .error  -- H5T_STR_ERROR
  else if n = 4 then some .reserved_4  -- H5T_STR_RESERVED_4
  else if n = 5 then some .reserved_5  -- H5T_STR_RESERVED_5
  else if n = 6 then some .reserved_6  -- H5T_STR_RESERVED_6
  else if n = 7 then some .reserved_7  -- H5T_STR_RESERVED_7
  else if n = 8 then some .reserved_8  -- H5T_STR_RESERVED_8
  else if n = 9 then some .reserved_9  -- H5T_STR_RESERVED_9
  else if n = 10 then some .reserved_10  -- H5T_STR_RESERVED_10
  else if n = 11 then some .reserved_11  -- H5T_STR_RESERVED_11
  else if n = 12 then some .reserved_12  -- H5T_STR_RESERVED_12
  else if n = 13 then some .reserved_13  -- H5T_STR_RESERVED_13
  else if n = 14 then some .reserved_14  -- H5T_STR_RESERVED_14
  else if n = 15 then some .reserved_15  -- H5T_STR_RESERVED_15
  else none

/-- Modelled from the spec: the host tags of family `pad`, which the header
does not declare.  The family table lists: zero, one, background, error.
The enumerators HDF5 declares beyond the table, each with its own tag,
appended: `H5T_NPAD` (3). -/
inductive pad_tag where
  | zero
  | one
  | background
  | error
  | npad
deriving DecidableEq, Repr, Fintype

/-- Modelled from the spec: the body of `H5T_pad_val`, declared in the header
without a body: each tag goes to the native enumerator with the same meaning. -/
def H5T_pad_val : pad_tag → Int
  | .zero => 0  -- H5T_PAD_ZERO
  | .one => 1  -- H5T_PAD_ONE
  | .background => 2  -- H5T_PAD_BACKGROUND
  | .error => -1  -- H5T_PAD_ERROR
  | .npad => 3  -- H5T_NPAD

/-- Modelled from the spec: the body of `Val_h5t_pad`, declared in the header
without a body: a dispatch on the native enumerator, one case per enumerator
HDF5 declares; an integer that is no enumerator of the family is an invariant
violation (`none`). -/
def Val_h5t_pad (n : Int) : Option pad_tag :=
  if n = 0 then some .zero  -- H5T_PAD_ZERO
  else if n = 1 then some .one  -- H5T_PAD_ONE
  else if n = 2 then some .background  -- H5T_PAD_BACKGROUND
  else if n = -1 then some .error  -- H5T_PAD_ERROR
  else if n = 3 then some .npad  -- H5T_NPAD
  else none

/-- Modelled from the spec: the host tags of family `cmd`, which the header
does not declare.  The family table lists: init, conv, free. -/
inductive cmd_tag where
  | init
  | conv
  | free
deriving DecidableEq, Repr, Fintype

/-- Modelled from the spec: the body of `H5T_cmd_val`, declared in the header
without a body: each tag goes to the native enumerator with the same meaning. -/
def H5T_cmd_val : cmd_tag → Int
  | .init => 0  -- H5T_CONV_INIT
  | .conv => 1  -- H5T_CONV_CONV
  | .free => 2  -- H5T_CONV_FREE

/-- Modelled from the spec: the body of `Val_h5t_cmd`, declared in the header
without a body: a dispatch on the native enumerator, one case per enumerator
HDF5 declares; an integer that is no enumerator of the family is an invariant
violation (`none`). -/
def Val_h5t_cmd (n : Int) : Option cmd_tag :=
  if n = 0 then some .init  -- H5T_CONV_INIT
  else if n = 1 then some .conv  -- H5T_CONV_CONV
  else if n = 2 then some .free  -- H5T_CONV_FREE
  else none

/-- Modelled from the spec: the host tags of family `bkg`, which the header
does not declare.  The family table lists: no, temp, yes. -/
inductive bkg_tag where
  | no
  | temp
  | yes
deriving DecidableEq, Repr, Fintype

/-- Modelled from the spec: the body of `H5T_bkg_val`, declared in the header
without a body: each tag goes to the native enumerator with the same meaning. -/
def H5T_bkg_val : bkg_tag → Int
  | .no => 0  -- H5T_BKG_NO
  | .temp => 1  -- H5T_BKG_TEMP
  | .yes => 2  -- H5T_BKG_YES

/-- Modelled from the spec: the body of `Val_h5t_bkg`, declared in the header
without a body: a dispatch on the native enumerator, one case per enumerator
HDF5 declares; an integer that is no enumerator of the family is an invariant
violation (`none`). -/
def Val_h5t_bkg (n : Int) : Option bkg_tag :=
  if n = 0 then some .no  -- H5T_BKG_NO
  else if n = 1 then some .temp  -- H5T_BKG_TEMP
  else if n = 2 then some .yes  -- H5T_BKG_YES
  else none

/-- Modelled from the spec: the host tags of family `pers`, which the header
does not declare.  The family table lists: hard, soft.
The enumerators HDF5 declares beyond the table, each with its own tag,
appended: `H5T_PERS_DONTCARE` (-1). -/
inductive pers_tag where
  | hard
  | soft
  | dontcare
deriving DecidableEq, Repr, Fintype

/-- Modelled from the spec: the body of `H5T_pers_val`, declared in the header
without a body: each tag goes to the native enumerator with the same meaning. -/
def H5T_pers_val : pers_tag → Int
  | .hard => 0  -- H5T_PERS_HARD
  | .soft => 1  -- H5T_PERS_SOFT
  | .dontcare => -1  -- H5T_PERS_DONTCARE

/-- Modelled from the spec: the body of `Val_h5t_pers`, declared in the header
without a body: a dispatch on the native enumerator, one case per enumerator
HDF5 declares; an integer that is no enumerator of the family is an invariant
violation (`none`). -/
def Val_h5t_pers (n : Int) : Option pers_tag :=
  if n = 0 then some .hard  -- H5T_PERS_HARD
  else if n = 1 then some .soft  -- H5T_PERS_SOFT
  else if n = -1 then some .dontcare  -- H5T_PERS_DONTCARE
  else none

/-- Modelled from the spec: the host tags of family `direction`, which the header
does not declare.  The family table lists: default, ascending, descending. -/
inductive direction_tag where
  | default
  | ascending
  | descending
deriving DecidableEq, Repr, Fintype

/-- Modelled from the spec: the body of `H5T_direction_val`, declared in the header
without a body: each tag goes to the native enumerator with the same meaning. -/
def H5T_direction_val : direction_tag → Int
  | .default => 0  -- H5T_DIR_DEFAULT
  | .ascending => 1  -- H5T_DIR_ASCEND
  | .descending => 2  -- H5T_DIR_DESCEND

/-- Modelled from the spec: the body of `Val_h5t_direction`, declared in the header
without a body: a dispatch on the native enumerator, one case per enumerator
HDF5 declares; an integer that is no enumerator of the family is an invariant
violation (`none`). -/
def Val_h5t_direction (n : Int) : Option direction_tag :=
  if n = 0 then some .default  -- H5T_DIR_DEFAULT
  else if n = 1 then some .ascending  -- H5T_DIR_ASCEND
  else if n = 2 then some .descending  -- H5T_DIR_DESCEND
  else none

/-- Modelled from the spec: the host tags of family `conv_except`, which the header
does not declare.  The family table lists: range_hi, range_low, precision, truncate, pinf, ninf, nan. -/
inductive conv_except_tag where
  | range_hi
  | range_low
  | precision
  | truncate
  | pinf
  | ninf
  | nan
deriving DecidableEq, Repr, Fintype

/-- Modelled from the spec: the body of `H5T_conv_except_val`, declared in the header
without a body: each tag goes to the native enumerator with the same meaning. -/
def H5T_conv_except_val : conv_except_tag → Int
  | .range_hi => 0  -- H5T_CONV_EXCEPT_RANGE_HI
  | .range_low => 1  -- H5T_CONV_EXCEPT_RANGE_LOW
  | .precision => 2  -- H5T_CONV_EXCEPT_PRECISION
  | .truncate => 3  -- H5T_CONV_EXCEPT_TRUNCATE
  | .pinf => 4  -- H5T_CONV_EXCEPT_PINF
  | .ninf => 5  -- H5T_CONV_EXCEPT_NINF
  | .nan => 6  -- H5T_CONV_EXCEPT_NAN

/-- Modelled from the spec: the body of `Val_h5t_conv_except`, declared in the header
without a body: a dispatch on the native enumerator, one case per enumerator
HDF5 declares; an integer that is no enumerator of the family is an invariant
violation (`none`). -/
def Val_h5t_conv_except (n : Int) : Option conv_except_tag :=
  if n = 0 then some .range_hi  -- H5T_CONV_EXCEPT_RANGE_HI
  else if n = 1 then some .range_low  -- H5T_CONV_EXCEPT_RANGE_LOW
  else if n = 2 then some .precision  -- H5T_CONV_EXCEPT_PRECISION
  else if n = 3 then some .truncate  -- H5T_CONV_EXCEPT_TRUNCATE
  else if n = 4 then some .pinf  -- H5T_CONV_EXCEPT_PINF
  else if n = 5 then some .ninf  -- H5T_CONV_EXCEPT_NINF
  else if n = 6 then some .nan  -- H5T_CONV_EXCEPT_NAN
  else none

/-- Modelled from the spec: the host tags of family `conv_ret`, which the header
does not declare.  The family table lists: abort, unhandled, handled. -/
inductive conv_ret_tag where
  | abort
  | unhandled
  | handled
deriving DecidableEq, Repr, Fintype

/-- Modelled from the spec: the body of `H5T_conv_ret_val`, declared in the header
without a body: each tag goes to the native enumerator with the same meaning. -/
def H5T_conv_ret_val : conv_ret_tag → Int
  | .abort => -1  -- H5T_CONV_ABORT
  | .unhandled => 0  -- H5T_CONV_UNHANDLED
  | .handled => 1  -- H5T_CONV_HANDLED

/-- Modelled from the spec: the body of `Val_h5t_conv_ret`, declared in the header
without a body: a dispatch on the native enumerator, one case per enumerator
HDF5 declares; an integer that is no enumerator of the family is an invariant
violation (`none`). -/
def Val_h5t_conv_ret (n : Int) : Option conv_ret_tag :=
  if n = -1 then some .abort  -- H5T_CONV_ABORT
  else if n = 0 then some .unhandled  -- H5T_CONV_UNHANDLED
  else if n = 1 then some .handled  -- H5T_CONV_HANDLED
  else none

/-! ## The wrapper: allocation, accesses, finalisation -/

/-- The accesses the header offers on a wrapper: each accessor is an lvalue,
so it can be read and assigned. -/
inductive h5t_access where
  | read_val
  | assign_val (i : Int)
  | read_closed
  | assign_closed (b : Bool)
deriving DecidableEq, Repr

/-- The payload after one access. -/
def h5t_access.apply (t : Target) (p : Payload) : h5t_access → Payload
  | .read_val => p
  | .assign_val i => H5T_val_assign t p i
  | .read_closed => p
  | .assign_closed b => H5T_closed_assign t p b

/-- The payload after a sequence of accesses, in program order. -/
def run_accesses (t : Target) (p : Payload) (ops : List h5t_access) : Payload :=
  ops.foldl (h5t_access.apply t) p

/-- The value of the closed flag before the accesses and after each of them,
in program order. -/
def closed_trace (t : Target) (p : Payload) : List h5t_access → List Bool
  | [] => [H5T_closed t p]
  | op :: ops => H5T_closed t p :: closed_trace t (h5t_access.apply t p op) ops

/-- The number of changes from false to true along a sequence of flag values. -/
def rises : List Bool → Nat
  | a :: b :: rest => (if a = false ∧ b = true then 1 else 0) + rises (b :: rest)
  | _ => 0

/-- The calls into the HDF5 library the wrapper makes. -/
inductive hdf5_call where
  | H5Tclose (id : Int)
deriving DecidableEq, Repr

/-- A custom block of the host runtime: its finalizer, if one is registered,
and its payload. -/
structure custom_value where
  finalize : Option (Target → Payload → List hdf5_call → List hdf5_call)
  data : Payload

/-- The payload of a custom block. -/
def Data_custom_val (v : custom_value) : Payload := v.data

/-- Modelled from the spec: the finalizer of a wrapper, whose body is not in
the header.  "If closed is false, call the HDF5 datatype-close routine on the
identifier; ignore its return code.  If closed is true, do nothing."  The
calls made so far are `calls`; the result is the calls made afterwards. -/
def h5t_finalize (t : Target) (p : Payload) (calls : List hdf5_call) : List hdf5_call :=
  if H5T_closed t p then calls else calls ++ [hdf5_call.H5Tclose (H5T_val t p)]

/-- Modelled from the spec: the body of `alloc_h5t`, which the header only
declares.  "Output: a freshly allocated opaque custom value containing
(id, closed=false).  Guarantee: the wrapper's finalizer is registered."  The
contents of the fresh block before initialisation are `fresh`. -/
def alloc_h5t (t : Target) (fresh : Payload) (id : Int) : custom_value :=
  { finalize := some h5t_finalize
    data := H5T_closed_assign t (H5T_val_assign t fresh id) false }

/-- The host runtime finalising a custom block: it runs the registered
finalizer, if any, once on the payload. -/
def run_finalizer (t : Target) (v : custom_value) (calls : List hdf5_call) : List hdf5_call :=
  match v.finalize with
  | some f => f t (Data_custom_val v) calls
  | none => calls

/-! ## Conversion data -/

/-- Modelled from the spec: the native conversion-data record `H5T_cdata_t`,
whose declaration is not in the header: a command discriminator, the
need-background field, the recalculate flag and the private pointer. -/
structure H5T_cdata_t where
  command : Int
  need_bkg : Int
  recalc : Bool
  priv : Nat
deriving DecidableEq, Repr

/-- Modelled from the spec: the contents of a host conversion-data block:
"command (via the cmd marshaller), need_bkg flag (via bkg marshaller), recalc
boolean, and an opaque payload representing the private state". -/
structure cdata_fields where
  command : cmd_tag
  need_bkg : bkg_tag
  recalc : Bool
  priv : Nat
deriving DecidableEq, Repr

/-- A host `value` holding conversion data: a reference to a block of the host
heap.  Two values are the same value when they refer to the same block; two
blocks with equal contents are different values. -/
abbrev value := Nat

/-- The failures of the conversion-data marshallers. -/
inductive cdata_error where
  | not_a_round_tripped_snapshot
  | invalid_native_record
deriving DecidableEq, Repr

/-- The host heap during one HDF5 callback: the next free block, the contents
of the blocks allocated so far, and the blocks the forward marshaller produced
in this callback, each with the native record it was taken from. -/
structure cdata_state where
  next : value
  heap : List (value × cdata_fields)
  snapshots : List (value × H5T_cdata_t)
deriving DecidableEq, Repr

/-- Modelled from the spec: the body of `Val_h5t_cdata`, declared in the header
without a body.  It reads the record `ptr` points to, marshals its fields into
a fresh block and records that block as a snapshot of this callback. -/
def Val_h5t_cdata (mem : Nat → Option H5T_cdata_t) (st : cdata_state) (ptr : Nat) :
    Except cdata_error (value × cdata_state) :=
  match mem ptr with
  | none => .error .invalid_native_record
  | some r =>
    match Val_h5t_cmd r.command, Val_h5t_bkg r.need_bkg with
    | some c, some b =>
      .ok (st.next,
        { next := st.next + 1
          heap := (st.next, { command := c, need_bkg := b, recalc := r.recalc, priv := r.priv })
            :: st.heap
          snapshots := (st.next, r) :: st.snapshots })
    | _, _ => .error .invalid_native_record

/-- Host code building a conversion-data value from scratch: a fresh block
with the given contents, which no marshaller has seen. -/
def host_alloc (st : cdata_state) (f : cdata_fields) : value × cdata_state :=
  (st.next, { st with next := st.next + 1, heap := (st.next, f) :: st.heap })

/-- Modelled from the spec: the body of `H5T_cdata_val`, declared in the header
without a body.  It "accepts only values that were produced by the forward
marshaller during the same HDF5 callback and carries them through unchanged";
any other value is a clean failure "distinguishing not a round-tripped
snapshot". -/
def H5T_cdata_val (st : cdata_state) (v : value) : Except cdata_error H5T_cdata_t :=
  match st.snapshots.find? (fun e => e.1 = v) with
  | some e => .ok e.2
  | none => .error .not_a_round_tripped_snapshot

/-- What host code does with conversion-data values during a callback: it has
the forward marshaller snapshot the record at `ptr`, or builds a value from
scratch. -/
inductive cdata_event where
  | forward (ptr : Nat)
  | scratch (f : cdata_fields)
deriving DecidableEq, Repr

/-- A callback in progress: the heap, the values the forward marshaller has
returned and the values host code has built from scratch. -/
structure cdata_run where
  st : cdata_state
  produced : List value
  built : List value
deriving DecidableEq, Repr

/-- One event of a callback. -/
def cdata_step (mem : Nat → Option H5T_cdata_t) (run : cdata_run) : cdata_event → cdata_run
  | .forward ptr =>
    match Val_h5t_cdata mem run.st ptr with
    | .ok (v, st2) => { run with st := st2, produced := v :: run.produced }
    | .error _ => run
  | .scratch f =>
    { run with st := (host_alloc run.st f).2, built := (host_alloc run.st f).1 :: run.built }

/-- The events of one HDF5 callback, in program order, from an empty heap. -/
def cdata_callback (mem : Nat → Option H5T_cdata_t) (events : List cdata_event) : cdata_run :=
  events.foldl (cdata_step mem) { st := { next := 0, heap := [], snapshots := [] },
                                  produced := [], built := [] }

/-! ## Memory lemmas -/

theorem mem_footprint (off len a : Nat) : a ∈ footprint off len ↔ off ≤ a ∧ a < off + len := by
  simp only [footprint, List.mem_map, List.mem_range]
  constructor
  · rintro ⟨k, hk, rfl⟩; omega
  · rintro ⟨h1, h2⟩; exact ⟨a - off, by omega, by omega⟩

theorem store_outside (p : Payload) (off : Nat) (bs : List Byte) (a : Nat)
    (h : a ∉ footprint off bs.length) : store p off bs a = p a := by
  rw [mem_footprint] at h
  unfold store
  split
  · have : bs.length ≤ a - off := by omega
    rw [List.get?_eq_none.mpr this]; rfl
  · rfl

theorem store_inside (p : Payload) (off : Nat) (bs : List Byte) (k : Nat) (h : k < bs.length) :
    store p off bs (off + k) = bs.get ⟨k, h⟩ := by
  unfold store
  simp [List.getElem?_eq_getElem h]

theorem load_congr (p q : Payload) (off len : Nat)
    (h : ∀ a ∈ footprint off len, p a = q a) : load p off len = load q off len := by
  unfold load
  exact List.map_congr_left h

theorem load_store_same (p : Payload) (off : Nat) (bs : List Byte) :
    load (store p off bs) off bs.length = bs := by
  apply List.ext_get
  · simp [load, footprint]
  · intro k h1 h2
    simp [load, footprint, store, List.getElem?_eq_getElem h2]

theorem load_store_disjoint (p : Payload) (off : Nat) (bs : List Byte) (off2 len : Nat)
    (h : ∀ a ∈ footprint off2 len, a ∉ footprint off bs.length) :
    load (store p off bs) off2 len = load p off2 len :=
  load_congr _ _ _ _ (fun a ha => store_outside p off bs a (h a ha))

/-! ## Encoding lemmas -/

theorem length_le_bytes (n u : Nat) : (le_bytes n u).length = n := by
  induction n generalizing u with
  | zero => rfl
  | succ n ih => simp [le_bytes, ih]

theorem le_value_le_bytes (n u : Nat) : le_value (le_bytes n u) = u % 256 ^ n := by
  induction n generalizing u with
  | zero => simp [le_bytes, le_value, Nat.mod_one]
  | succ n ih =>
    simp only [le_bytes, le_value, ih]
    rw [pow_succ, mul_comm (256 ^ n) 256, Nat.mod_mul]

theorem le_value_lt (bs : List Byte) : le_value bs < 256 ^ bs.length := by
  induction bs with
  | nil => simp [le_value]
  | cons b bs ih =>
    simp only [le_value, List.length_cons, pow_succ]
    have := b.isLt
    omega

theorem le_bytes_le_value (bs : List Byte) : le_bytes bs.length (le_value bs) = bs := by
  induction bs with
  | nil => rfl
  | cons b bs ih =>
    have hb := b.isLt
    have h1 : (b.val + 256 * le_value bs) % 256 = b.val := by omega
    have h2 : (b.val + 256 * le_value bs) / 256 = le_value bs := by omega
    simp only [List.length_cons, le_bytes, le_value, h2, ih]
    congr 1
    exact Fin.ext h1

theorem length_int_bytes (t : Target) (n u : Nat) : (int_bytes t n u).length = n := by
  unfold int_bytes; split <;> simp [length_le_bytes]

theorem bytes_int_int_bytes (t : Target) (n u : Nat) :
    bytes_int t (int_bytes t n u) = u % 256 ^ n := by
  unfold bytes_int int_bytes
  split <;> simp [le_value_le_bytes]

theorem int_bytes_bytes_int (t : Target) (bs : List Byte) :
    int_bytes t bs.length (bytes_int t bs) = bs := by
  unfold bytes_int int_bytes
  split
  · have := le_bytes_le_value bs.reverse
    rw [List.length_reverse] at this
    rw [this, List.reverse_reverse]
  · exact le_bytes_le_value bs

theorem bytes_int_lt (t : Target) (bs : List Byte) : bytes_int t bs < 256 ^ bs.length := by
  unfold bytes_int
  split
  · have := le_value_lt bs.reverse
    rwa [List.length_reverse] at this
  · exact le_value_lt bs

theorem hid_t_bits_lt (t : Target) (i : Int) : hid_t_bits t i < 256 ^ t.sizeof_hid_t := by
  unfold hid_t_bits
  have hpos : (0 : Int) < 256 ^ t.sizeof_hid_t := by positivity
  have h1 := Int.emod_nonneg i (ne_of_gt hpos)
  have h2 := Int.emod_lt_of_pos i hpos
  have : (((i % (256 ^ t.sizeof_hid_t : Int)).toNat : Nat) : Int) < ((256 ^ t.sizeof_hid_t : Nat) : Int) := by
    rw [Int.toNat_of_nonneg h1]; push_cast; exact h2
  exact_mod_cast this

theorem hid_t_of_bits_bits (t : Target) (i : Int) (h : hid_t_range t i) :
    hid_t_of_bits t (hid_t_bits t i) = i := by
  obtain ⟨hlo, hhi⟩ := h
  unfold hid_t_of_bits hid_t_bits
  have hpos : (0 : Int) < 256 ^ t.sizeof_hid_t := by positivity
  have h1 := Int.emod_nonneg i (ne_of_gt hpos)
  rcases lt_or_le i 0 with hneg | hnn
  · have hm : i % (256 ^ t.sizeof_hid_t : Int) = i + 256 ^ t.sizeof_hid_t := by
      rw [← Int.add_mul_emod_self (a := i) (b := 1) (c := (256 ^ t.sizeof_hid_t : Int))]
      rw [one_mul]
      exact Int.emod_eq_of_lt (by omega) (by omega)
    have hc : ¬ (2 * (i % (256 ^ t.sizeof_hid_t : Int)).toNat < 256 ^ t.sizeof_hid_t) := by
      intro hlt
      have : (2 * ((i % (256 ^ t.sizeof_hid_t : Int)).toNat : Int)) < (256 ^ t.sizeof_hid_t : Int) := by
        exact_mod_cast hlt
      rw [Int.toNat_of_nonneg h1, hm] at this
      omega
    rw [if_neg hc, Int.toNat_of_nonneg h1, hm]
    omega
  · have hm : i % (256 ^ t.sizeof_hid_t : Int) = i := Int.emod_eq_of_lt hnn (by omega)
    have hc : 2 * (i % (256 ^ t.sizeof_hid_t : Int)).toNat < 256 ^ t.sizeof_hid_t := by
      have : (2 * ((i % (256 ^ t.sizeof_hid_t : Int)).toNat : Int)) < (256 ^ t.sizeof_hid_t : Int) := by
        rw [Int.toNat_of_nonneg h1, hm]; exact hhi
      exact_mod_cast this
    rw [if_pos hc, Int.toNat_of_nonneg h1, hm]

theorem hid_t_bits_of_bits (t : Target) (u : Nat) (h : u < 256 ^ t.sizeof_hid_t) :
    hid_t_bits t (hid_t_of_bits t u) = u := by
  have hu : (u : Int) < 256 ^ t.sizeof_hid_t := by exact_mod_cast h
  unfold hid_t_of_bits hid_t_bits
  split
  · rw [Int.emod_eq_of_lt (by omega) hu]; simp
  · have : ((u : Int) - 256 ^ t.sizeof_hid_t) % (256 ^ t.sizeof_hid_t : Int) = u := by
      rw [Int.sub_emod, Int.emod_self, sub_zero, Int.emod_emod_of_dvd _ (dvd_refl _)]
      exact Int.emod_eq_of_lt (by omega) hu
    rw [this]; simp

/-! ## The accessors as fields of the payload -/

theorem H5T_val_footprint_eq (t : Target) : H5T_val_footprint t = List.range t.sizeof_hid_t := by
  simp [H5T_val_footprint, footprint]

theorem H5T_closed_footprint_eq (t : Target) : H5T_closed_footprint t = [t.sizeof_hid_t] := by
  simp [H5T_closed_footprint, footprint, sizeof_bool, List.range_succ]

theorem length_load (p : Payload) (off len : Nat) : (load p off len).length = len := by
  simp [load, footprint]

theorem bool_bytes (t : Target) (b : Bool) :
    int_bytes t sizeof_bool (if b then 1 else 0) = [if b then 1 else 0] := by
  cases b <;> cases hbe : t.big_endian <;> simp [int_bytes, sizeof_bool, le_bytes, hbe]

theorem H5T_closed_eq (t : Target) (p : Payload) :
    H5T_closed t p = (p t.sizeof_hid_t != 0) := by
  simp [H5T_closed, load, footprint, sizeof_bool, List.range_succ]

theorem H5T_val_closed_assign (t : Target) (p : Payload) (b : Bool) :
    H5T_val t (H5T_closed_assign t p b) = H5T_val t p := by
  unfold H5T_val H5T_closed_assign
  rw [load_store_disjoint]
  intro a ha hb
  rw [mem_footprint] at ha hb
  rw [length_int_bytes] at hb
  omega

theorem H5T_closed_closed_assign (t : Target) (p : Payload) (b : Bool) :
    H5T_closed t (H5T_closed_assign t p b) = b := by
  rw [H5T_closed_eq, H5T_closed_assign, bool_bytes]
  have := store_inside p t.sizeof_hid_t [if b then 1 else 0] 0 (by simp)
  rw [Nat.add_zero] at this
  rw [this]
  cases b <;> simp

theorem H5T_val_val_assign (t : Target) (p : Payload) (i : Int) (h : hid_t_range t i) :
    H5T_val t (H5T_val_assign t p i) = i := by
  unfold H5T_val H5T_val_assign
  have hl := length_int_bytes t t.sizeof_hid_t (hid_t_bits t i)
  have := load_store_same p 0 (int_bytes t t.sizeof_hid_t (hid_t_bits t i))
  rw [hl] at this
  rw [this, bytes_int_int_bytes, Nat.mod_eq_of_lt (hid_t_bits_lt t i)]
  exact hid_t_of_bits_bits t i h

theorem H5T_closed_val_assign (t : Target) (p : Payload) (i : Int) :
    H5T_closed t (H5T_val_assign t p i) = H5T_closed t p := by
  rw [H5T_closed_eq, H5T_closed_eq, H5T_val_assign, store_outside]
  rw [mem_footprint, length_int_bytes]
  omega

theorem H5T_val_eq_iff (t : Target) (p q : Payload) :
    H5T_val t p = H5T_val t q ↔ ∀ a ∈ H5T_val_footprint t, p a = q a := by
  constructor
  · intro h
    unfold H5T_val at h
    have hp := bytes_int_lt t (load p 0 t.sizeof_hid_t)
    have hq := bytes_int_lt t (load q 0 t.sizeof_hid_t)
    rw [length_load] at hp hq
    have h2 := congrArg (hid_t_bits t) h
    rw [hid_t_bits_of_bits t _ hp, hid_t_bits_of_bits t _ hq] at h2
    have h3 := congrArg (int_bytes t t.sizeof_hid_t) h2
    have ep := int_bytes_bytes_int t (load p 0 t.sizeof_hid_t)
    have eq := int_bytes_bytes_int t (load q 0 t.sizeof_hid_t)
    rw [length_load] at ep eq
    rw [ep, eq] at h3
    exact List.map_inj_left.mp h3
  · intro h
    unfold H5T_val
    rw [load_congr p q 0 t.sizeof_hid_t h]

theorem closed_preserved (t : Target) (p : Payload) (ops : List h5t_access)
    (h : ∀ op ∈ ops, op ≠ h5t_access.assign_closed false)
    (hc : H5T_closed t p = true) : H5T_closed t (run_accesses t p ops) = true := by
  induction ops generalizing p with
  | nil => exact hc
  | cons op ops ih =>
    have hop : op ≠ h5t_access.assign_closed false := h op (List.mem_cons_self _ _)
    have htl : ∀ o ∈ ops, o ≠ h5t_access.assign_closed false :=
      fun o ho => h o (List.mem_cons_of_mem _ ho)
    show H5T_closed t (run_accesses t (h5t_access.apply t p op) ops) = true
    apply ih _ htl
    cases op with
    | read_val => exact hc
    | read_closed => exact hc
    | assign_val i => exact (H5T_closed_val_assign t p i).trans hc
    | assign_closed b =>
      cases b with
      | true => exact H5T_closed_closed_assign t p true
      | false => exact absurd rfl hop

theorem apply_closed_of_closed (t : Target) (p : Payload) (op : h5t_access)
    (hop : op ≠ h5t_access.assign_closed false) (hc : H5T_closed t p = true) :
    H5T_closed t (h5t_access.apply t p op) = true :=
  closed_preserved t p [op] (by simpa using hop) hc

theorem rises_closed_trace_of_closed (t : Target) (p : Payload) (ops : List h5t_access)
    (h : ∀ op ∈ ops, op ≠ h5t_access.assign_closed false)
    (hc : H5T_closed t p = true) : rises (closed_trace t p ops) = 0 := by
  induction ops generalizing p with
  | nil => simp [closed_trace, rises]
  | cons op ops ih =>
    have hop : op ≠ h5t_access.assign_closed false := h op (List.mem_cons_self _ _)
    have htl : ∀ o ∈ ops, o ≠ h5t_access.assign_closed false :=
      fun o ho => h o (List.mem_cons_of_mem _ ho)
    have hc2 := apply_closed_of_closed t p op hop hc
    have ih2 := ih (h5t_access.apply t p op) htl hc2
    cases ops with
    | nil => simp [closed_trace, rises, hc]
    | cons o os =>
      simp only [closed_trace] at ih2 ⊢
      simp only [rises, hc] at ih2 ⊢
      simpa using ih2

theorem rises_closed_trace_le (t : Target) (p : Payload) (ops : List h5t_access)
    (h : ∀ op ∈ ops, op ≠ h5t_access.assign_closed false) :
    rises (closed_trace t p ops) ≤ 1 := by
  induction ops generalizing p with
  | nil => simp [closed_trace, rises]
  | cons op ops ih =>
    have hop : op ≠ h5t_access.assign_closed false := h op (List.mem_cons_self _ _)
    have htl : ∀ o ∈ ops, o ≠ h5t_access.assign_closed false :=
      fun o ho => h o (List.mem_cons_of_mem _ ho)
    by_cases hc : H5T_closed t p = true
    · rw [rises_closed_trace_of_closed t p (op :: ops) h hc]
      exact Nat.zero_le 1
    · have hcf : H5T_closed t p = false := by simpa using hc
      by_cases hn : H5T_closed t (h5t_access.apply t p op) = true
      · have h0 := rises_closed_trace_of_closed t _ ops htl hn
        cases ops with
        | nil => simp [closed_trace, rises, hcf, hn]
        | cons o os =>
          simp only [closed_trace] at h0 ⊢
          simp [rises, hcf, hn] at h0 ⊢
          omega
      · have hnf : H5T_closed t (h5t_access.apply t p op) = false := by simpa using hn
        have ih2 := ih (h5t_access.apply t p op) htl
        cases ops with
        | nil => simp [closed_trace, rises, hcf, hnf]
        | cons o os =>
          simp only [closed_trace] at ih2 ⊢
          simp [rises, hcf, hnf] at ih2 ⊢
          omega

/-! ## Claims about the wrapper -/

/-- C5: `H5T_val` addresses exactly the payload offsets `0 .. sizeof(hid_t) - 1`
and `H5T_closed` exactly the offset `sizeof(hid_t)`: the two footprints are
adjacent, disjoint and together are the first `sizeof(hid_t) + 1` offsets; the
identifier read is determined by, and determines, the bytes of its footprint;
the flag read is the byte at `sizeof(hid_t)` being non-zero; an assignment
through either accessor changes no byte outside its footprint. -/
theorem H5T_layout (t : Target) :
    H5T_val_footprint t = List.range t.sizeof_hid_t ∧
    H5T_closed_footprint t = [t.sizeof_hid_t] ∧
    H5T_val_footprint t ++ H5T_closed_footprint t = List.range (t.sizeof_hid_t + 1) ∧
    (∀ a, ¬ (a ∈ H5T_val_footprint t ∧ a ∈ H5T_closed_footprint t)) ∧
    (∀ p q : Payload, H5T_val t p = H5T_val t q ↔ ∀ a ∈ H5T_val_footprint t, p a = q a) ∧
    (∀ p : Payload, H5T_closed t p = (p t.sizeof_hid_t != 0)) ∧
    (∀ (p : Payload) (i : Int) (a : Nat),
      a ∉ H5T_val_footprint t → H5T_val_assign t p i a = p a) ∧
    (∀ (p : Payload) (b : Bool) (a : Nat),
      a ∉ H5T_closed_footprint t → H5T_closed_assign t p b a = p a) := by
  refine ⟨H5T_val_footprint_eq t, H5T_closed_footprint_eq t, ?_, ?_, H5T_val_eq_iff t,
    H5T_closed_eq t, ?_, ?_⟩
  · rw [H5T_val_footprint_eq, H5T_closed_footprint_eq, List.range_succ]
  · intro a
    rw [H5T_val_footprint_eq, H5T_closed_footprint_eq]
    simp only [List.mem_range, List.mem_singleton]
    omega
  · intro p i a ha
    unfold H5T_val_assign
    apply store_outside
    rwa [length_int_bytes]
  · intro p b a ha
    unfold H5T_closed_assign
    apply store_outside
    rwa [length_int_bytes]

/-- C6: assigning the closed flag through `H5T_closed(w) = b` leaves the
identifier read through `H5T_val(w)` unchanged, for every payload and both
values of `b`. -/
theorem H5T_val_after_closed_assign (t : Target) (p : Payload) (b : Bool) :
    H5T_val t (H5T_closed_assign t p b) = H5T_val t p :=
  H5T_val_closed_assign t p b

/-- C10: the two accessors are independent fields: the flag read after
`H5T_closed(w) = b` is `b`; the identifier read after `H5T_val(w) = i` is `i`,
for every `i` of type `hid_t`; and `H5T_val(w) = i` leaves the flag as it
was. -/
theorem H5T_fields_independent (t : Target) (p : Payload) (b : Bool) (i : Int)
    (hi : hid_t_range t i) :
    H5T_closed t (H5T_closed_assign t p b) = b ∧
    H5T_val t (H5T_val_assign t p i) = i ∧
    H5T_closed t (H5T_val_assign t p i) = H5T_closed t p :=
  ⟨H5T_closed_closed_assign t p b, H5T_val_val_assign t p i hi, H5T_closed_val_assign t p i⟩

/-- Witness of C10 on a 4-byte little-endian `hid_t`, identifier -7. -/
theorem H5T_fields_independent_witness :
    hid_t_range ⟨4, false⟩ (-7) ∧
    H5T_closed ⟨4, false⟩ (H5T_closed_assign ⟨4, false⟩ (fun _ => 170) true) = true ∧
    H5T_val ⟨4, false⟩ (H5T_val_assign ⟨4, false⟩ (fun _ => 170) (-7)) = -7 ∧
    H5T_closed ⟨4, false⟩ (H5T_val_assign ⟨4, false⟩ (fun _ => 170) (-7)) =
      H5T_closed ⟨4, false⟩ (fun _ => 170) :=
  ⟨by decide, H5T_fields_independent ⟨4, false⟩ (fun _ => 170) true (-7) (by decide)⟩

/-- C3: for every identifier `id` of type `hid_t` and whatever the fresh block
held, the wrapper `alloc_h5t(id)` returns reads back `id` through `H5T_val`
and `false` through `H5T_closed`; the leading `sizeof(hid_t)` bytes of its
payload are the object representation of `id` and the byte just past them
is 0. -/
theorem alloc_h5t_fields (t : Target) (fresh : Payload) (id : Int) (hid : hid_t_range t id) :
    H5T_val t (Data_custom_val (alloc_h5t t fresh id)) = id ∧
    H5T_closed t (Data_custom_val (alloc_h5t t fresh id)) = false ∧
    load (Data_custom_val (alloc_h5t t fresh id)) 0 t.sizeof_hid_t =
      int_bytes t t.sizeof_hid_t (hid_t_bits t id) ∧
    Data_custom_val (alloc_h5t t fresh id) t.sizeof_hid_t = 0 := by
  have hc : H5T_closed t (Data_custom_val (alloc_h5t t fresh id)) = false :=
    H5T_closed_closed_assign t _ false
  refine ⟨?_, hc, ?_, ?_⟩
  · show H5T_val t (H5T_closed_assign t (H5T_val_assign t fresh id) false) = id
    rw [H5T_val_closed_assign]
    exact H5T_val_val_assign t fresh id hid
  · show load (H5T_closed_assign t (H5T_val_assign t fresh id) false) 0 t.sizeof_hid_t = _
    unfold H5T_closed_assign
    rw [load_store_disjoint]
    · unfold H5T_val_assign
      have := load_store_same fresh 0 (int_bytes t t.sizeof_hid_t (hid_t_bits t id))
      rwa [length_int_bytes] at this
    · intro a ha hb
      rw [mem_footprint] at ha hb
      rw [length_int_bytes] at hb
      omega
  · rw [H5T_closed_eq] at hc
    simpa using hc

/-- Witness of C3: allocation around identifier 42 on a 4-byte little-endian
`hid_t`, the fresh block holding the byte 170 everywhere. -/
theorem alloc_h5t_fields_witness :
    hid_t_range ⟨4, false⟩ 42 ∧
    H5T_val ⟨4, false⟩ (Data_custom_val (alloc_h5t ⟨4, false⟩ (fun _ => 170) 42)) = 42 ∧
    H5T_closed ⟨4, false⟩ (Data_custom_val (alloc_h5t ⟨4, false⟩ (fun _ => 170) 42)) = false ∧
    load (Data_custom_val (alloc_h5t ⟨4, false⟩ (fun _ => 170) 42)) 0 4 =
      int_bytes ⟨4, false⟩ 4 (hid_t_bits ⟨4, false⟩ 42) ∧
    Data_custom_val (alloc_h5t ⟨4, false⟩ (fun _ => 170) 42) 4 = 0 :=
  ⟨by decide, alloc_h5t_fields ⟨4, false⟩ (fun _ => 170) 42 (by decide)⟩

/-- C4: when the finalizer registered by `alloc_h5t` runs on a wrapper whose
payload is `p`, the calls it adds are exactly one `H5Tclose(H5T_val(w))` if
`H5T_closed(w)` is false and none if it is true. -/
theorem finalizer_closes_iff_open (t : Target) (fresh : Payload) (id : Int) (p : Payload)
    (calls : List hdf5_call) :
    run_finalizer t { alloc_h5t t fresh id with data := p } calls =
      calls ++ (if H5T_closed t p then [] else [hdf5_call.H5Tclose (H5T_val t p)]) ∧
    (run_finalizer t { alloc_h5t t fresh id with data := p } calls).length =
      calls.length + (if H5T_closed t p then 0 else 1) := by
  have h : run_finalizer t { alloc_h5t t fresh id with data := p } calls =
      calls ++ (if H5T_closed t p then [] else [hdf5_call.H5Tclose (H5T_val t p)]) := by
    show h5t_finalize t p calls = _
    unfold h5t_finalize
    split <;> simp
  refine ⟨h, ?_⟩
  rw [h]
  split <;> simp

/-- Allocation around 42 followed by finalisation closes 42 once; allocation
around 7, `H5T_closed(w) = true`, then finalisation closes nothing. -/
theorem finalizer_scenarios :
    run_finalizer ⟨4, false⟩ (alloc_h5t ⟨4, false⟩ (fun _ => 170) 42) [] =
      [hdf5_call.H5Tclose 42] ∧
    run_finalizer ⟨8, true⟩
      { alloc_h5t ⟨8, true⟩ (fun _ => 170) 7 with
        data := H5T_closed_assign ⟨8, true⟩
          (Data_custom_val (alloc_h5t ⟨8, true⟩ (fun _ => 170) 7)) true } [] = [] := by
  decide

/-- C7, as stated, fails: on a wrapper whose flag was set, the assignment
`H5T_closed(w) = false`, which the lvalue accessor offers, takes the flag from
true back to false. -/
theorem closed_flag_can_be_reset :
    H5T_closed ⟨4, false⟩
      (run_accesses ⟨4, false⟩ (fun _ => 0) [h5t_access.assign_closed true]) = true ∧
    H5T_closed ⟨4, false⟩
      (run_accesses ⟨4, false⟩ (fun _ => 0)
        [h5t_access.assign_closed true, h5t_access.assign_closed false]) = false := by
  decide

/-- C7, amended: along every sequence of accesses that never assigns `false`
to `H5T_closed`, the flag is monotone: if it is true after a first part `xs`
of the sequence it is true after the whole sequence, and it changes from false
to true at most once. -/
theorem closed_flag_monotone (t : Target) (p : Payload) (ops : List h5t_access)
    (h : ∀ op ∈ ops, op ≠ h5t_access.assign_closed false) :
    (∀ xs ys : List h5t_access, ops = xs ++ ys →
      H5T_closed t (run_accesses t p xs) = true →
      H5T_closed t (run_accesses t p (xs ++ ys)) = true) ∧
    rises (closed_trace t p ops) ≤ 1 := by
  refine ⟨?_, rises_closed_trace_le t p ops h⟩
  intro xs ys hops hc
  have hrun : run_accesses t p (xs ++ ys) = run_accesses t (run_accesses t p xs) ys := by
    simp [run_accesses, List.foldl_append]
  rw [hrun]
  apply closed_preserved t _ ys _ hc
  intro op hop
  exact h op (by rw [hops]; exact List.mem_append_right _ hop)

/-- Witness of the amended C7: set the flag, then assign the identifier, read
the flag and set it again. -/
theorem closed_flag_monotone_witness :
    (∀ op ∈ [h5t_access.assign_closed true, h5t_access.assign_val 9, h5t_access.read_closed,
        h5t_access.assign_closed true], op ≠ h5t_access.assign_closed false) ∧
    (∀ xs ys : List h5t_access,
      [h5t_access.assign_closed true, h5t_access.assign_val 9, h5t_access.read_closed,
        h5t_access.assign_closed true] = xs ++ ys →
      H5T_closed ⟨4, false⟩ (run_accesses ⟨4, false⟩ (fun _ => 0) xs) = true →
      H5T_closed ⟨4, false⟩ (run_accesses ⟨4, false⟩ (fun _ => 0) (xs ++ ys)) = true) ∧
    rises (closed_trace ⟨4, false⟩ (fun _ => 0)
      [h5t_access.assign_closed true, h5t_access.assign_val 9, h5t_access.read_closed,
        h5t_access.assign_closed true]) ≤ 1 :=
  ⟨by decide,
    closed_flag_monotone ⟨4, false⟩ (fun _ => 0)
      [h5t_access.assign_closed true, h5t_access.assign_val 9, h5t_access.read_closed,
        h5t_access.assign_closed true] (by decide)⟩

/-! ## Enumeration lemmas -/

theorem Val_h5t_class_of_val (t : class_tag) : Val_h5t_class (H5T_class_val t) = some t := by
  cases t <;> rfl

theorem H5T_class_val_injective : Function.Injective H5T_class_val := by
  intro a b h
  have := congrArg Val_h5t_class h
  rw [Val_h5t_class_of_val, Val_h5t_class_of_val] at this
  exact Option.some.inj this

theorem Val_h5t_order_of_val (t : order_tag) : Val_h5t_order (H5T_order_val t) = some t := by
  cases t <;> rfl

theorem H5T_order_val_injective : Function.Injective H5T_order_val := by
  intro a b h
  have := congrArg Val_h5t_order h
  rw [Val_h5t_order_of_val, Val_h5t_order_of_val] at this
  exact Option.some.inj this

theorem Val_h5t_sign_of_val (t : sign_tag) : Val_h5t_sign (H5T_sign_val t) = some t := by
  cases t <;> rfl

theorem H5T_sign_val_injective : Function.Injective H5T_sign_val := by
  intro a b h
  have := congrArg Val_h5t_sign h
  rw [Val_h5t_sign_of_val, Val_h5t_sign_of_val] at this
  exact Option.some.inj this

theorem Val_h5t_norm_of_val (t : norm_tag) : Val_h5t_norm (H5T_norm_val t) = some t := by
  cases t <;> rfl

theorem H5T_norm_val_injective : Function.Injective H5T_norm_val := by
  intro a b h
  have := congrArg Val_h5t_norm h
  rw [Val_h5t_norm_of_val, Val_h5t_norm_of_val] at this
  exact Option.some.inj this

theorem Val_h5t_cset_of_val (t : cset_tag) : Val_h5t_cset (H5T_cset_val t) = some t := by
  cases t <;> rfl

theorem H5T_cset_val_injective : Function.Injective H5T_cset_val := by
  intro a b h
  have := congrArg Val_h5t_cset h
  rw [Val_h5t_cset_of_val, Val_h5t_cset_of_val] at this
  exact Option.some.inj this

theorem Val_h5t_str_of_val (t : str_tag) : Val_h5t_str (H5T_str_val t) = some t := by
  cases t <;> rfl

theorem H5T_str_val_injective : Function.Injective H5T_str_val := by
  intro a b h
  have := congrArg Val_h5t_str h
  rw [Val_h5t_str_of_val, Val_h5t_str_of_val] at this
  exact Option.some.inj this

theorem Val_h5t_pad_of_val (t : pad_tag) : Val_h5t_pad (H5T_pad_val t) = some t := by
  cases t <;> rfl

theorem H5T_pad_val_injective : Function.Injective H5T_pad_val := by
  intro a b h
  have := congrArg Val_h5t_pad h
  rw [Val_h5t_pad_of_val, Val_h5t_pad_of_val] at this
  exact Option.some.inj this

theorem Val_h5t_cmd_of_val (t : cmd_tag) : Val_h5t_cmd (H5T_cmd_val t) = some t := by
  cases t <;> rfl

theorem H5T_cmd_val_injective : Function.Injective H5T_cmd_val := by
  intro a b h
  have := congrArg Val_h5t_cmd h
  rw [Val_h5t_cmd_of_val, Val_h5t_cmd_of_val] at this
  exact Option.some.inj this

theorem Val_h5t_bkg_of_val (t : bkg_tag) : Val_h5t_bkg (H5T_bkg_val t) = some t := by
  cases t <;> rfl

theorem H5T_bkg_val_injective : Function.Injective H5T_bkg_val := by
  intro a b h
  have := congrArg Val_h5t_bkg h
  rw [Val_h5t_bkg_of_val, Val_h5t_bkg_of_val] at this
  exact Option.some.inj this

theorem Val_h5t_pers_of_val (t : pers_tag) : Val_h5t_pers (H5T_pers_val t) = some t := by
  cases t <;> rfl

theorem H5T_pers_val_injective : Function.Injective H5T_pers_val := by
  intro a b h
  have := congrArg Val_h5t_pers h
  rw [Val_h5t_pers_of_val, Val_h5t_pers_of_val] at this
  exact Option.some.inj this

theorem Val_h5t_direction_of_val (t : direction_tag) : Val_h5t_direction (H5T_direction_val t) = some t := by
  cases t <;> rfl

theorem H5T_direction_val_injective : Function.Injective H5T_direction_val := by
  intro a b h
  have := congrArg Val_h5t_direction h
  rw [Val_h5t_direction_of_val, Val_h5t_direction_of_val] at this
  exact Option.some.inj this

theorem Val_h5t_conv_except_of_val (t : conv_except_tag) : Val_h5t_conv_except (H5T_conv_except_val t) = some t := by
  cases t <;> rfl

theorem H5T_conv_except_val_injective : Function.Injective H5T_conv_except_val := by
  intro a b h
  have := congrArg Val_h5t_conv_except h
  rw [Val_h5t_conv_except_of_val, Val_h5t_conv_except_of_val] at this
  exact Option.some.inj this

theorem Val_h5t_conv_ret_of_val (t : conv_ret_tag) : Val_h5t_conv_ret (H5T_conv_ret_val t) = some t := by
  cases t <;> rfl

theorem H5T_conv_ret_val_injective : Function.Injective H5T_conv_ret_val := by
  intro a b h
  have := congrArg Val_h5t_conv_ret h
  rw [Val_h5t_conv_ret_of_val, Val_h5t_conv_ret_of_val] at this
  exact Option.some.inj this

/-- C2: in every family, converting a host tag to the native enumerator and
back returns the same tag, and the tag-to-native conversion is injective. -/
theorem enum_tag_to_native_and_back :
    ((∀ t : class_tag, Val_h5t_class (H5T_class_val t) = some t) ∧
      Function.Injective H5T_class_val) ∧
    ((∀ t : order_tag, Val_h5t_order (H5T_order_val t) = some t) ∧
      Function.Injective H5T_order_val) ∧
    ((∀ t : sign_tag, Val_h5t_sign (H5T_sign_val t) = some t) ∧
      Function.Injective H5T_sign_val) ∧
    ((∀ t : norm_tag, Val_h5t_norm (H5T_norm_val t) = some t) ∧
      Function.Injective H5T_norm_val) ∧
    ((∀ t : cset_tag, Val_h5t_cset (H5T_cset_val t) = some t) ∧
      Function.Injective H5T_cset_val) ∧
    ((∀ t : str_tag, Val_h5t_str (H5T_str_val t) = some t) ∧
      Function.Injective H5T_str_val) ∧
    ((∀ t : pad_tag, Val_h5t_pad (H5T_pad_val t) = some t) ∧
      Function.Injective H5T_pad_val) ∧
    ((∀ t : cmd_tag, Val_h5t_cmd (H5T_cmd_val t) = some t) ∧
      Function.Injective H5T_cmd_val) ∧
    ((∀ t : bkg_tag, Val_h5t_bkg (H5T_bkg_val t) = some t) ∧
      Function.Injective H5T_bkg_val) ∧
    ((∀ t : pers_tag, Val_h5t_pers (H5T_pers_val t) = some t) ∧
      Function.Injective H5T_pers_val) ∧
    ((∀ t : direction_tag, Val_h5t_direction (H5T_direction_val t) = some t) ∧
      Function.Injective H5T_direction_val) ∧
    ((∀ t : conv_except_tag, Val_h5t_conv_except (H5T_conv_except_val t) = some t) ∧
      Function.Injective H5T_conv_except_val) ∧
    ((∀ t : conv_ret_tag, Val_h5t_conv_ret (H5T_conv_ret_val t) = some t) ∧
      Function.Injective H5T_conv_ret_val) :=
  ⟨⟨Val_h5t_class_of_val, H5T_class_val_injective⟩,
    ⟨Val_h5t_order_of_val, H5T_order_val_injective⟩,
    ⟨Val_h5t_sign_of_val, H5T_sign_val_injective⟩,
    ⟨Val_h5t_norm_of_val, H5T_norm_val_injective⟩,
    ⟨Val_h5t_cset_of_val, H5T_cset_val_injective⟩,
    ⟨Val_h5t_str_of_val, H5T_str_val_injective⟩,
    ⟨Val_h5t_pad_of_val, H5T_pad_val_injective⟩,
    ⟨Val_h5t_cmd_of_val, H5T_cmd_val_injective⟩,
    ⟨Val_h5t_bkg_of_val, H5T_bkg_val_injective⟩,
    ⟨Val_h5t_pers_of_val, H5T_pers_val_injective⟩,
    ⟨Val_h5t_direction_of_val, H5T_direction_val_injective⟩,
    ⟨Val_h5t_conv_except_of_val, H5T_conv_except_val_injective⟩,
    ⟨Val_h5t_conv_ret_of_val, H5T_conv_ret_val_injective⟩⟩

/-- A value built from scratch with exactly the contents of a snapshot is
refused, the snapshot itself is accepted: the record at pointer 5 is
snapshotted (value 0), then host code builds a block with the same four
fields (value 1). -/
theorem forged_cdata_refused :
    (cdata_callback (fun p => if p = 5 then some ⟨1, 1, true, 9⟩ else none)
      [cdata_event.forward 5, cdata_event.scratch ⟨cmd_tag.conv, bkg_tag.temp, true, 9⟩]).st.heap
      = [(1, ⟨cmd_tag.conv, bkg_tag.temp, true, 9⟩), (0, ⟨cmd_tag.conv, bkg_tag.temp, true, 9⟩)] ∧
    H5T_cdata_val
      (cdata_callback (fun p => if p = 5 then some ⟨1, 1, true, 9⟩ else none)
        [cdata_event.forward 5, cdata_event.scratch ⟨cmd_tag.conv, bkg_tag.temp, true, 9⟩]).st 0
      = .ok ⟨1, 1, true, 9⟩ ∧
    H5T_cdata_val
      (cdata_callback (fun p => if p = 5 then some ⟨1, 1, true, 9⟩ else none)
        [cdata_event.forward 5, cdata_event.scratch ⟨cmd_tag.conv, bkg_tag.temp, true, 9⟩]).st 1
      = .error cdata_error.not_a_round_tripped_snapshot :=
  ⟨by decide, rfl, rfl⟩

end H5TStubs
